import Mathlib

/-!
Verification of the staged authentication pipeline and credential storage
of PandoraLauncher, shallowly embedded from
`crates/auth/src/credentials.rs`, `crates/auth/src/storage.rs`,
`crates/auth/src/error.rs` and `crates/backend/src/account.rs`.

Timestamps (`chrono::DateTime<Utc>`) are embedded as natural numbers;
only their linear order is used by the code. Shared immutable strings
(`Arc<str>`) are embedded as `String`.
-/

namespace Pandora

/-- Modelled from the spec: `TokenWithExpiry` (declared in the crate's
`models.rs`, which is not part of the analysed sources) is an opaque
token value plus an absolute expiry timestamp; usage in `credentials.rs`
accesses exactly the fields `token` and `expiry`. -/
structure TokenWithExpiry where
  token : String
  expiry : Nat
  deriving DecidableEq, Repr

/-- Modelled from the spec: `XstsToken` (the spec's `SecureExchangeToken`,
declared in the crate's `models.rs`) is a token with expiry plus an
associated user-hash string; usage in `credentials.rs` accesses exactly
`token`, `userhash` and `expiry`. -/
structure XstsToken where
  token : String
  userhash : String
  expiry : Nat
  deriving DecidableEq, Repr

/-- Modelled from the spec: `MinecraftAccessToken` (declared in the crate's
`models.rs`) is a newtype wrapper around a shared token string. -/
structure MinecraftAccessToken where
  token : String
  deriving DecidableEq, Repr

/-- The five-slot credential chain, `AccountCredentials` in
`credentials.rs`. -/
structure AccountCredentials where
  msa_refresh : Option String
  msa_access : Option TokenWithExpiry
  xbl : Option TokenWithExpiry
  xsts : Option XstsToken
  access_token : Option TokenWithExpiry
  deriving DecidableEq, Repr

/-- `TokenType` in `credentials.rs`. -/
inductive TokenType where
  | AccessToken
  | Xsts
  | Xbl
  | MsaAccess
  | MsaRefresh
  deriving DecidableEq, Repr

/-- `TokenValidationResult` in `credentials.rs`. -/
inductive TokenValidationResult where
  | Valid
  | Invalid (tokens : List TokenType)
  deriving DecidableEq, Repr

/-- `AuthStage` in `credentials.rs`: a totally ordered tag, ordered by the
`repr(u8)` discriminant used by the derived `Ord`. -/
inductive AuthStage where
  | Initial
  | MsaRefresh
  | MsaAccess
  | XboxLive
  | XboxSecure
  | AccessToken
  deriving DecidableEq, Repr

/-- The `repr(u8)` discriminant of an `AuthStage`, giving the derived
`Ord` order of `credentials.rs`. -/
def AuthStage.toNat : AuthStage → Nat
  | .Initial => 0
  | .MsaRefresh => 1
  | .MsaAccess => 2
  | .XboxLive => 3
  | .XboxSecure => 4
  | .AccessToken => 5

/-- `AuthStageWithData` in `credentials.rs`. -/
inductive AuthStageWithData where
  | Initial
  | MsaRefresh (token : String)
  | MsaAccess (token : String)
  | XboxLive (token : String)
  | XboxSecure (xsts : String) (userhash : String)
  | AccessToken (token : MinecraftAccessToken)
  deriving DecidableEq, Repr

/-- `AuthStageWithData::stage` in `credentials.rs`. -/
def AuthStageWithData.stage : AuthStageWithData → AuthStage
  | .Initial => .Initial
  | .MsaRefresh _ => .MsaRefresh
  | .MsaAccess _ => .MsaAccess
  | .XboxLive _ => .XboxLive
  | .XboxSecure _ _ => .XboxSecure
  | .AccessToken _ => .AccessToken

/-- The `invalid_tokens` vector built by
`AccountCredentials::validate_token_chain` in `credentials.rs`: the same
conditional pushes in the same order. The Rust code reads `Utc::now()`
at entry; the embedding takes that timestamp as the argument `now`. -/
def invalid_tokens (c : AccountCredentials) (now : Nat) : List TokenType :=
  (match c.access_token with
   | some access_token =>
     if now ≥ access_token.expiry then [TokenType.AccessToken] else []
   | none => [TokenType.AccessToken]) ++
  (match c.xsts with
   | some xsts => if now ≥ xsts.expiry then [TokenType.Xsts] else []
   | none => [TokenType.Xsts]) ++
  (match c.xbl with
   | some xbl => if now ≥ xbl.expiry then [TokenType.Xbl] else []
   | none => [TokenType.Xbl]) ++
  (match c.msa_access with
   | some msa_access => if now ≥ msa_access.expiry then [TokenType.MsaAccess] else []
   | none => [TokenType.MsaAccess]) ++
  (if c.msa_refresh.isNone then [TokenType.MsaRefresh] else [])

/-- `AccountCredentials::validate_token_chain` in `credentials.rs`:
collect the invalid tokens, return `Valid` iff none were collected. -/
def AccountCredentials.validate_token_chain (c : AccountCredentials) (now : Nat) :
    TokenValidationResult :=
  if (invalid_tokens c now).isEmpty then TokenValidationResult.Valid
  else TokenValidationResult.Invalid (invalid_tokens c now)

/-- Step 5 of `AccountCredentials::stage`: try returning MsaRefresh,
else return the initial stage. Returns the result together with the
chain as left by the method (the Rust method mutates `self` in place). -/
def stageMsaRefresh (c : AccountCredentials) :
    AuthStageWithData × AccountCredentials :=
  match c.msa_refresh with
  | some msa_refresh => (.MsaRefresh msa_refresh, c)
  | none => (.Initial, c)

/-- Step 4 of `AccountCredentials::stage`: try returning MsaAccess;
on failure clear `msa_access` and fall through. -/
def stageMsaAccess (c : AccountCredentials) (now : Nat) :
    AuthStageWithData × AccountCredentials :=
  match c.msa_access with
  | some msa_access =>
    if now < msa_access.expiry then (.MsaAccess msa_access.token, c)
    else stageMsaRefresh { c with msa_access := none }
  | none => stageMsaRefresh { c with msa_access := none }

/-- Step 3 of `AccountCredentials::stage`: try returning XboxLive;
on failure clear `xbl` and fall through. -/
def stageXbl (c : AccountCredentials) (now : Nat) :
    AuthStageWithData × AccountCredentials :=
  match c.xbl with
  | some xbl =>
    if now < xbl.expiry then (.XboxLive xbl.token, c)
    else stageMsaAccess { c with xbl := none } now
  | none => stageMsaAccess { c with xbl := none } now

/-- Step 2 of `AccountCredentials::stage`: try returning XboxSecure;
on failure clear `xsts` and fall through. -/
def stageXsts (c : AccountCredentials) (now : Nat) :
    AuthStageWithData × AccountCredentials :=
  match c.xsts with
  | some xsts =>
    if now < xsts.expiry then (.XboxSecure xsts.token xsts.userhash, c)
    else stageXbl { c with xsts := none } now
  | none => stageXbl { c with xsts := none } now

/-- `AccountCredentials::stage` in `credentials.rs`. The Rust method
mutates `self` (clearing slots found expired) and returns an
`AuthStageWithData`; the embedding takes the timestamp read from
`Utc::now()` as the argument `now` and returns the pair of the result
and the chain after mutation. -/
def AccountCredentials.stage (c : AccountCredentials) (now : Nat) :
    AuthStageWithData × AccountCredentials :=
  match c.access_token with
  | some access_token =>
    if now < access_token.expiry then
      (.AccessToken ⟨access_token.token⟩, c)
    else stageXsts { c with access_token := none } now
  | none => stageXsts { c with access_token := none } now

/-- Modelled from the spec: `SecretStorageError` (declared in the crate's
`secret.rs`, which is not part of the analysed sources) is the opaque
error reported by the platform secure-storage backend. -/
structure SecretStorageError where
  code : Nat
  deriving DecidableEq, Repr

/-- `AuthError` in `error.rs`; `StorageError` wraps a `SecretStorageError`
via the derived `From` used by the `?` operator. -/
inductive AuthError where
  | StorageError (e : SecretStorageError)
  | VerificationFailed
  | SerializationError
  deriving DecidableEq, Repr

/-- Modelled from the spec: the external secure-storage adapter
(`PlatformSecretStorage`, declared in the crate's `secret.rs`) for a
fixed account identifier, as the results its operations return on each
attempt of the storage service: `write_credentials k` / `read_credentials k`
is the adapter's answer during attempt number `k` (0-based). -/
structure SecretStorageBehavior where
  write_credentials : Nat → AccountCredentials → Except SecretStorageError Unit
  read_credentials : Nat → Except SecretStorageError (Option AccountCredentials)
  delete_credentials : Nat → Except SecretStorageError Unit

/-- `CredentialStorage::write_and_verify_once` in `storage.rs`, for
attempt number `attempt`: write the given credentials, propagating the
store error via `?`, then read back; a present record verifies the
write, a missing one is `VerificationFailed`. -/
def CredentialStorage.write_and_verify_once (storage : SecretStorageBehavior)
    (credentials : AccountCredentials) (attempt : Nat) : Except AuthError Unit :=
  match storage.write_credentials attempt credentials with
  | .error e => .error (.StorageError e)
  | .ok _ =>
    match storage.read_credentials attempt with
    | .error e => .error (.StorageError e)
    | .ok (some _) => .ok ()
    | .ok none => .error .VerificationFailed

/-- The retry loop of `CredentialStorage::retry_with_backoff` in
`storage.rs`, entered with failure counter `attempts`. Returns the
result, the total number of attempts performed, and the list of backoff
delays (in milliseconds) inserted between attempts, in order: the Rust
code sleeps `100 * (1 << (attempts - 1))` ms after the `attempts`-th
failure when more attempts remain. -/
def retryLoop (storage : SecretStorageBehavior) (credentials : AccountCredentials)
    (max_retries : Nat) (attempts : Nat) : Except AuthError Unit × Nat × List Nat :=
  match CredentialStorage.write_and_verify_once storage credentials attempts with
  | .ok _ => (.ok (), attempts + 1, [])
  | .error e =>
    if attempts + 1 ≥ max_retries then (.error e, attempts + 1, [])
    else
      let delay := 100 * 2 ^ attempts
      let rest := retryLoop storage credentials max_retries (attempts + 1)
      (rest.1, rest.2.1, delay :: rest.2.2)
termination_by max_retries - attempts
decreasing_by simp_wf; omega

/-- `CredentialStorage::retry_with_backoff` in `storage.rs`: the loop
starting from `attempts = 0`. -/
def CredentialStorage.retry_with_backoff (storage : SecretStorageBehavior)
    (credentials : AccountCredentials) (max_retries : Nat) :
    Except AuthError Unit × Nat × List Nat :=
  retryLoop storage credentials max_retries 0

/-- `CredentialStorage::write_and_verify` in `storage.rs`: retry with
backoff, `max_retries = 3`. -/
def CredentialStorage.write_and_verify (storage : SecretStorageBehavior)
    (credentials : AccountCredentials) : Except AuthError Unit × Nat × List Nat :=
  CredentialStorage.retry_with_backoff storage credentials 3

/-- `CredentialStorage::read` in `storage.rs`: a single
`read_credentials` call (attempt index 0, there is no retry), its error
mapped into `AuthError` by `map_err(AuthError::from)`. -/
def CredentialStorage.read (storage : SecretStorageBehavior) :
    Except AuthError (Option AccountCredentials) :=
  match storage.read_credentials 0 with
  | .ok v => .ok v
  | .error e => .error (.StorageError e)

/-- `CredentialStorage::delete` in `storage.rs`: a single
`delete_credentials` call (attempt index 0, there is no retry), its
error mapped into `AuthError` by `map_err(AuthError::from)`. -/
def CredentialStorage.delete (storage : SecretStorageBehavior) :
    Except AuthError Unit :=
  match storage.delete_credentials 0 with
  | .ok v => .ok v
  | .error e => .error (.StorageError e)

/-- `BackendAccount` in `backend/src/account.rs`; the head image bytes
are embedded as a list of bytes. -/
structure BackendAccount where
  username : String
  offline : Bool
  head : Option (List Nat)
  deriving DecidableEq, Repr

/-- `BackendAccountInfo` in `backend/src/account.rs`; the
`FxHashMap<Uuid, BackendAccount>` is embedded as an association list and
`Uuid` as `Nat`. -/
structure BackendAccountInfo where
  accounts : List (Nat × BackendAccount)
  selected_account : Option Nat
  deriving DecidableEq, Repr

/-- The body of the removal loop of
`BackendAccountInfo::validate_accounts`: remove one identifier from the
map and reset `selected_account` to `None` when it is the removed one. -/
def removeAccount (acc : BackendAccountInfo) (uuid : Nat) : BackendAccountInfo :=
  { accounts := acc.accounts.filter fun p => p.1 ≠ uuid,
    selected_account :=
      if acc.selected_account = some uuid then none
      else acc.selected_account }

/-- `BackendAccountInfo::validate_accounts` in `backend/src/account.rs`:
collect every account whose `read_credentials` answer is not
`Ok(Some(_))`, then remove each collected identifier. The adapter is
given as the per-identifier result of `read_credentials` during this
single pass. -/
def BackendAccountInfo.validate_accounts
    (read_credentials : Nat → Except SecretStorageError (Option AccountCredentials))
    (info : BackendAccountInfo) : BackendAccountInfo :=
  let accounts_to_remove : List Nat :=
    (info.accounts.filter fun p =>
      match read_credentials p.1 with
      | .ok (some _) => false
      | .ok none => true
      | .error _ => true).map Prod.fst
  accounts_to_remove.foldl removeAccount info

/-!
Claim-side definitions: the resolver's return value as worded by the
spec, defined independently of the mutation bookkeeping, to be compared
with the embedded `AccountCredentials.stage`.
-/

/-- Spec wording, resolver steps 5-6: MsaRefresh if the refresh token is
present (no expiry check), else Initial. -/
def specResolveMsaRefresh (c : AccountCredentials) : AuthStageWithData :=
  match c.msa_refresh with
  | some msa_refresh => .MsaRefresh msa_refresh
  | none => .Initial

/-- Spec wording, resolver step 4: MsaAccess if `msa_access` is present
and unexpired, else fall through. -/
def specResolveMsaAccess (c : AccountCredentials) (now : Nat) : AuthStageWithData :=
  match c.msa_access with
  | some msa_access =>
    if now < msa_access.expiry then .MsaAccess msa_access.token
    else specResolveMsaRefresh c
  | none => specResolveMsaRefresh c

/-- Spec wording, resolver step 3: XboxLive if `xbl` is present and
unexpired, else fall through. -/
def specResolveXbl (c : AccountCredentials) (now : Nat) : AuthStageWithData :=
  match c.xbl with
  | some xbl =>
    if now < xbl.expiry then .XboxLive xbl.token
    else specResolveMsaAccess c now
  | none => specResolveMsaAccess c now

/-- Spec wording, resolver step 2: XboxSecure carrying the exchange
token and the user-hash if `xsts` is present and unexpired, else fall
through. -/
def specResolveXsts (c : AccountCredentials) (now : Nat) : AuthStageWithData :=
  match c.xsts with
  | some xsts =>
    if now < xsts.expiry then .XboxSecure xsts.token xsts.userhash
    else specResolveXbl c now
  | none => specResolveXbl c now

/-- Spec wording, resolver step 1: AccessToken carrying the service
token if `access_token` is present and `now < expiry`, else fall
through to the later steps. -/
def specResolve (c : AccountCredentials) (now : Nat) : AuthStageWithData :=
  match c.access_token with
  | some access_token =>
    if now < access_token.expiry then .AccessToken ⟨access_token.token⟩
    else specResolveXsts c now
  | none => specResolveXsts c now

/-- C1: for every credential chain and current time, the Stage Resolver
returns the furthest-along valid stage, checked from the most advanced
stage backward, exactly as the spec's backward search describes it. -/
theorem stage_returns_longest_valid_suffix (c : AccountCredentials) (now : Nat) :
    (c.stage now).1 = specResolve c now := by
  obtain ⟨mr, ma, xb, xs, ac⟩ := c
  cases ac <;> cases xs <;> cases xb <;> cases ma <;> cases mr <;>
    simp only [AccountCredentials.stage, stageXsts, stageXbl, stageMsaAccess,
      stageMsaRefresh, specResolve, specResolveXsts, specResolveXbl,
      specResolveMsaAccess, specResolveMsaRefresh, apply_ite (f := Prod.fst)]

/-- The slot belonging to stage `s` is absent in chain `c` (`Initial`
has no slot). -/
def slotCleared (c : AccountCredentials) : AuthStage → Prop
  | .Initial => True
  | .MsaRefresh => c.msa_refresh = none
  | .MsaAccess => c.msa_access = none
  | .XboxLive => c.xbl = none
  | .XboxSecure => c.xsts = none
  | .AccessToken => c.access_token = none

/-- The slot belonging to stage `s` has the same value in `c'` as in `c`
(`Initial` has no slot). -/
def slotPreserved (c c' : AccountCredentials) : AuthStage → Prop
  | .Initial => True
  | .MsaRefresh => c'.msa_refresh = c.msa_refresh
  | .MsaAccess => c'.msa_access = c.msa_access
  | .XboxLive => c'.xbl = c.xbl
  | .XboxSecure => c'.xsts = c.xsts
  | .AccessToken => c'.access_token = c.access_token

/-- C3: when the Stage Resolver returns stage `S`, every slot belonging
to a stage strictly more advanced than `S` is `None` in the resulting
chain, and every slot belonging to stage `S` or an earlier stage is left
exactly as it was. -/
theorem stage_frame_effect (c : AccountCredentials) (now : Nat) (s : AuthStage) :
    ((c.stage now).1.stage.toNat < s.toNat → slotCleared (c.stage now).2 s) ∧
    (s.toNat ≤ (c.stage now).1.stage.toNat → slotPreserved c (c.stage now).2 s) := by
  obtain ⟨mr, ma, xb, xs, ac⟩ := c
  cases ac <;> cases xs <;> cases xb <;> cases ma <;> cases mr <;>
    simp only [AccountCredentials.stage, stageXsts, stageXbl, stageMsaAccess,
      stageMsaRefresh] <;>
    (try split_ifs) <;>
    cases s <;>
    simp [AuthStageWithData.stage, AuthStage.toNat, slotCleared, slotPreserved]

/-- C3 witness: on the spec's own example — `access_token` expired at
`now = 10`, `xsts` unexpired — the resolver clears `access_token`,
returns the XboxSecure stage, and the remaining slots are untouched. -/
theorem stage_frame_effect_witness :
    let c : AccountCredentials :=
      { msa_refresh := some "r", msa_access := some ⟨"m", 20⟩,
        xbl := some ⟨"x", 20⟩, xsts := some ⟨"s", "u", 20⟩,
        access_token := some ⟨"a", 5⟩ }
    (c.stage 10).1.stage.toNat < AuthStage.AccessToken.toNat ∧
      slotCleared (c.stage 10).2 .AccessToken ∧
      AuthStage.XboxSecure.toNat ≤ (c.stage 10).1.stage.toNat ∧
      slotPreserved c (c.stage 10).2 .XboxSecure ∧
      slotPreserved c (c.stage 10).2 .XboxLive ∧
      slotPreserved c (c.stage 10).2 .MsaAccess ∧
      slotPreserved c (c.stage 10).2 .MsaRefresh := by
  intro c
  refine ⟨by decide, (stage_frame_effect c 10 .AccessToken).1 (by decide),
    by decide, (stage_frame_effect c 10 .XboxSecure).2 (by decide),
    (stage_frame_effect c 10 .XboxLive).2 (by decide),
    (stage_frame_effect c 10 .MsaAccess).2 (by decide),
    (stage_frame_effect c 10 .MsaRefresh).2 (by decide)⟩

lemma stageMsaRefresh_snd (c : AccountCredentials) : (stageMsaRefresh c).2 = c := by
  unfold stageMsaRefresh
  split <;> rfl

lemma update_ma_none (c : AccountCredentials) (h : c.msa_access = none) :
    { c with msa_access := none } = c := by
  obtain ⟨mr, ma, xb, xs, ac⟩ := c
  subst h
  rfl

lemma update_xbl_none (c : AccountCredentials) (h : c.xbl = none) :
    { c with xbl := none } = c := by
  obtain ⟨mr, ma, xb, xs, ac⟩ := c
  subst h
  rfl

lemma update_xsts_none (c : AccountCredentials) (h : c.xsts = none) :
    { c with xsts := none } = c := by
  obtain ⟨mr, ma, xb, xs, ac⟩ := c
  subst h
  rfl

lemma update_ac_none (c : AccountCredentials) (h : c.access_token = none) :
    { c with access_token := none } = c := by
  obtain ⟨mr, ma, xb, xs, ac⟩ := c
  subst h
  rfl

lemma stageMsaAccess_snd_fields (c : AccountCredentials) (now : Nat) :
    ((stageMsaAccess c now).2).msa_refresh = c.msa_refresh ∧
    ((stageMsaAccess c now).2).xbl = c.xbl ∧
    ((stageMsaAccess c now).2).xsts = c.xsts ∧
    ((stageMsaAccess c now).2).access_token = c.access_token := by
  obtain ⟨mr, ma, xb, xs, ac⟩ := c
  cases ma <;> simp [stageMsaAccess, stageMsaRefresh_snd] <;>
    split_ifs <;> simp [stageMsaRefresh_snd]

lemma stageMsaAccess_of_ma_none (c : AccountCredentials) (now : Nat)
    (h : c.msa_access = none) :
    stageMsaAccess c now = stageMsaRefresh c := by
  unfold stageMsaAccess
  rw [h, update_ma_none c h]

lemma stageMsaAccess_idem (c : AccountCredentials) (now : Nat) :
    stageMsaAccess (stageMsaAccess c now).2 now = stageMsaAccess c now := by
  obtain ⟨mr, ma, xb, xs, ac⟩ := c
  cases ma with
  | none => simp [stageMsaAccess, stageMsaRefresh_snd]
  | some t =>
    by_cases h : now < t.expiry
    · simp [stageMsaAccess, h]
    · simp [stageMsaAccess, h, stageMsaRefresh_snd]

lemma stageXbl_snd_fields (c : AccountCredentials) (now : Nat) :
    ((stageXbl c now).2).msa_refresh = c.msa_refresh ∧
    ((stageXbl c now).2).xsts = c.xsts ∧
    ((stageXbl c now).2).access_token = c.access_token := by
  obtain ⟨mr, ma, xb, xs, ac⟩ := c
  cases xb with
  | none =>
    have h := stageMsaAccess_snd_fields ⟨mr, ma, none, xs, ac⟩ now
    simpa [stageXbl] using ⟨h.1, h.2.2.1, h.2.2.2⟩
  | some t =>
    by_cases h : now < t.expiry
    · simp [stageXbl, h]
    · have h2 := stageMsaAccess_snd_fields ⟨mr, ma, none, xs, ac⟩ now
      simpa [stageXbl, h] using ⟨h2.1, h2.2.2.1, h2.2.2.2⟩

lemma stageXbl_of_xbl_none (c : AccountCredentials) (now : Nat)
    (h : c.xbl = none) :
    stageXbl c now = stageMsaAccess c now := by
  unfold stageXbl
  rw [h, update_xbl_none c h]

lemma stageXbl_of_expired (c : AccountCredentials) (t : TokenWithExpiry)
    (now : Nat) (h : c.xbl = some t) (he : ¬ now < t.expiry) :
    stageXbl c now = stageMsaAccess { c with xbl := none } now := by
  unfold stageXbl
  rw [h]
  exact if_neg he

lemma stageXbl_idem (c : AccountCredentials) (now : Nat) :
    stageXbl (stageXbl c now).2 now = stageXbl c now := by
  obtain ⟨mr, ma, xb, xs, ac⟩ := c
  cases xb with
  | none =>
    have hnone : ((stageMsaAccess ⟨mr, ma, none, xs, ac⟩ now).2).xbl = none :=
      (stageMsaAccess_snd_fields _ now).2.1
    rw [stageXbl_of_xbl_none ⟨mr, ma, none, xs, ac⟩ now rfl,
      stageXbl_of_xbl_none _ now hnone, stageMsaAccess_idem]
  | some t =>
    by_cases h : now < t.expiry
    · simp [stageXbl, h]
    · have hnone : ((stageMsaAccess ⟨mr, ma, none, xs, ac⟩ now).2).xbl = none :=
        (stageMsaAccess_snd_fields _ now).2.1
      rw [stageXbl_of_expired ⟨mr, ma, some t, xs, ac⟩ t now rfl h,
        stageXbl_of_xbl_none _ now hnone, stageMsaAccess_idem]

lemma stageXsts_snd_fields (c : AccountCredentials) (now : Nat) :
    ((stageXsts c now).2).access_token = c.access_token := by
  obtain ⟨mr, ma, xb, xs, ac⟩ := c
  cases xs with
  | none =>
    have h := stageXbl_snd_fields ⟨mr, ma, xb, none, ac⟩ now
    simpa [stageXsts] using h.2.2
  | some t =>
    by_cases h : now < t.expiry
    · simp [stageXsts, h]
    · have h2 := stageXbl_snd_fields ⟨mr, ma, xb, none, ac⟩ now
      simpa [stageXsts, h] using h2.2.2

lemma stageXsts_of_xsts_none (c : AccountCredentials) (now : Nat)
    (h : c.xsts = none) :
    stageXsts c now = stageXbl c now := by
  unfold stageXsts
  rw [h, update_xsts_none c h]

lemma stageXsts_of_expired (c : AccountCredentials) (t : XstsToken)
    (now : Nat) (h : c.xsts = some t) (he : ¬ now < t.expiry) :
    stageXsts c now = stageXbl { c with xsts := none } now := by
  unfold stageXsts
  rw [h]
  exact if_neg he

lemma stageXsts_idem (c : AccountCredentials) (now : Nat) :
    stageXsts (stageXsts c now).2 now = stageXsts c now := by
  obtain ⟨mr, ma, xb, xs, ac⟩ := c
  cases xs with
  | none =>
    have hnone : ((stageXbl ⟨mr, ma, xb, none, ac⟩ now).2).xsts = none :=
      (stageXbl_snd_fields _ now).2.1
    rw [stageXsts_of_xsts_none ⟨mr, ma, xb, none, ac⟩ now rfl,
      stageXsts_of_xsts_none _ now hnone, stageXbl_idem]
  | some t =>
    by_cases h : now < t.expiry
    · simp [stageXsts, h]
    · have hnone : ((stageXbl ⟨mr, ma, xb, none, ac⟩ now).2).xsts = none :=
        (stageXbl_snd_fields _ now).2.1
      rw [stageXsts_of_expired ⟨mr, ma, xb, some t, ac⟩ t now rfl h,
        stageXsts_of_xsts_none _ now hnone, stageXbl_idem]

lemma stage_of_ac_none (c : AccountCredentials) (now : Nat)
    (h : c.access_token = none) :
    c.stage now = stageXsts c now := by
  unfold AccountCredentials.stage
  rw [h, update_ac_none c h]

lemma stage_of_expired (c : AccountCredentials) (t : TokenWithExpiry)
    (now : Nat) (h : c.access_token = some t) (he : ¬ now < t.expiry) :
    c.stage now = stageXsts { c with access_token := none } now := by
  unfold AccountCredentials.stage
  rw [h]
  exact if_neg he

/-- C6: the Stage Resolver is idempotent — a second call at the same
time returns the same value and leaves the chain exactly as the first
call left it. -/
theorem stage_idempotent (c : AccountCredentials) (now : Nat) :
    ((c.stage now).2).stage now = c.stage now := by
  obtain ⟨mr, ma, xb, xs, ac⟩ := c
  cases ac with
  | none =>
    have hnone : ((stageXsts ⟨mr, ma, xb, xs, none⟩ now).2).access_token = none :=
      stageXsts_snd_fields _ now
    rw [stage_of_ac_none ⟨mr, ma, xb, xs, none⟩ now rfl,
      stage_of_ac_none _ now hnone, stageXsts_idem]
  | some t =>
    by_cases h : now < t.expiry
    · simp [AccountCredentials.stage, h]
    · have hnone : ((stageXsts ⟨mr, ma, xb, xs, none⟩ now).2).access_token = none :=
        stageXsts_snd_fields _ now
      rw [stage_of_expired ⟨mr, ma, xb, xs, some t⟩ t now rfl h,
        stage_of_ac_none _ now hnone, stageXsts_idem]

/-- C8: the Stage Resolver result depends on nothing besides the five
slots of the chain and the current time — two invocations on chains with
equal slots at the same time return equal results and produce equal
final chains. -/
theorem stage_deterministic (c₁ c₂ : AccountCredentials) (now : Nat)
    (hmr : c₁.msa_refresh = c₂.msa_refresh)
    (hma : c₁.msa_access = c₂.msa_access)
    (hxb : c₁.xbl = c₂.xbl)
    (hxs : c₁.xsts = c₂.xsts)
    (hac : c₁.access_token = c₂.access_token) :
    c₁.stage now = c₂.stage now := by
  obtain ⟨mr₁, ma₁, xb₁, xs₁, ac₁⟩ := c₁
  obtain ⟨mr₂, ma₂, xb₂, xs₂, ac₂⟩ := c₂
  cases hmr; cases hma; cases hxb; cases hxs; cases hac
  rfl

/-- C8 witness: two structurally equal one-slot chains resolve
identically at time 0. -/
theorem stage_deterministic_witness :
    ({ msa_refresh := some "r", msa_access := none, xbl := none,
       xsts := none, access_token := none } : AccountCredentials).stage 0 =
    ({ msa_refresh := some "r", msa_access := none, xbl := none,
       xsts := none, access_token := none } : AccountCredentials).stage 0 :=
  stage_deterministic _ _ 0 rfl rfl rfl rfl rfl

/-- The claim's condition for a slot to be invalid at time `now`: the
refresh token is invalid iff absent; each other slot is invalid iff
absent or `now ≥ expiry`. -/
def tokenInvalid (c : AccountCredentials) (now : Nat) : TokenType → Bool
  | .AccessToken =>
    match c.access_token with
    | some t => now ≥ t.expiry
    | none => true
  | .Xsts =>
    match c.xsts with
    | some t => now ≥ t.expiry
    | none => true
  | .Xbl =>
    match c.xbl with
    | some t => now ≥ t.expiry
    | none => true
  | .MsaAccess =>
    match c.msa_access with
    | some t => now ≥ t.expiry
    | none => true
  | .MsaRefresh => c.msa_refresh.isNone

/-- The set of slots a validation result reports as invalid. -/
def reportedInvalid (r : TokenValidationResult) (t : TokenType) : Prop :=
  match r with
  | .Valid => False
  | .Invalid l => t ∈ l

lemma invalid_tokens_eq (c : AccountCredentials) (now : Nat) :
    invalid_tokens c now =
      (if tokenInvalid c now .AccessToken then [TokenType.AccessToken] else []) ++
      (if tokenInvalid c now .Xsts then [TokenType.Xsts] else []) ++
      (if tokenInvalid c now .Xbl then [TokenType.Xbl] else []) ++
      (if tokenInvalid c now .MsaAccess then [TokenType.MsaAccess] else []) ++
      (if tokenInvalid c now .MsaRefresh then [TokenType.MsaRefresh] else []) := by
  unfold invalid_tokens tokenInvalid
  obtain ⟨mr, ma, xb, xs, ac⟩ := c
  cases ac <;> cases xs <;> cases xb <;> cases ma <;> cases mr <;> simp

lemma mem_invalid_tokens (c : AccountCredentials) (now : Nat) (t : TokenType) :
    t ∈ invalid_tokens c now ↔ tokenInvalid c now t = true := by
  rw [invalid_tokens_eq]
  cases t <;>
    cases hAT : tokenInvalid c now .AccessToken <;>
    cases hXS : tokenInvalid c now .Xsts <;>
    cases hXB : tokenInvalid c now .Xbl <;>
    cases hMA : tokenInvalid c now .MsaAccess <;>
    cases hMR : tokenInvalid c now .MsaRefresh <;>
    simp_all

/-- C4: the Chain Validator checks all five slots unconditionally and
returns `Invalid` containing exactly the set of invalid slots (refresh:
invalid iff absent; others: invalid iff absent or `now ≥ expiry`),
`Valid` iff that set is empty; on the all-absent chain it reports
exactly the five token kinds. -/
theorem validate_token_chain_collects_all_invalid (c : AccountCredentials) (now : Nat) :
    (c.validate_token_chain now = .Valid ↔ ∀ t, ¬ tokenInvalid c now t = true) ∧
    (∀ t, reportedInvalid (c.validate_token_chain now) t ↔ tokenInvalid c now t = true) ∧
    (AccountCredentials.validate_token_chain ⟨none, none, none, none, none⟩ now =
      .Invalid [.AccessToken, .Xsts, .Xbl, .MsaAccess, .MsaRefresh]) := by
  refine ⟨?_, ?_, rfl⟩
  · unfold AccountCredentials.validate_token_chain
    split
    · rename_i hempty
      rw [List.isEmpty_iff] at hempty
      simp only [true_iff]
      intro t ht
      have := (mem_invalid_tokens c now t).2 ht
      rw [hempty] at this
      simp at this
    · rename_i hne
      constructor
      · intro h
        exact absurd h (by simp)
      · intro h
        have hnil : invalid_tokens c now ≠ [] := by
          intro hx
          rw [← List.isEmpty_iff] at hx
          exact hne hx
        obtain ⟨t, rest, hcons⟩ := List.exists_cons_of_ne_nil hnil
        have ht : t ∈ invalid_tokens c now := by
          rw [hcons]
          exact List.mem_cons_self t rest
        exact absurd ((mem_invalid_tokens c now t).1 ht) (h t)
  · intro t
    unfold AccountCredentials.validate_token_chain
    split
    · rename_i hempty
      rw [List.isEmpty_iff] at hempty
      simp only [reportedInvalid, false_iff]
      intro ht
      have := (mem_invalid_tokens c now t).2 ht
      rw [hempty] at this
      simp at this
    · simpa [reportedInvalid] using mem_invalid_tokens c now t

/-- C7: a single write-then-verify attempt succeeds precisely when the
write succeeds and the read-back returns some record; the record's
content is never compared with the written credentials, so any present
record verifies the attempt, even one differing from what was written. -/
theorem write_and_verify_once_checks_presence_only
    (storage : SecretStorageBehavior) (credentials : AccountCredentials) (k : Nat) :
    (CredentialStorage.write_and_verify_once storage credentials k = .ok () ↔
      storage.write_credentials k credentials = .ok () ∧
      ∃ r, storage.read_credentials k = .ok (some r)) ∧
    (∀ r, storage.write_credentials k credentials = .ok () →
      storage.read_credentials k = .ok (some r) → r ≠ credentials →
      CredentialStorage.write_and_verify_once storage credentials k = .ok ()) := by
  unfold CredentialStorage.write_and_verify_once
  rcases hw : storage.write_credentials k credentials with e | u
  · simp [hw]
  · rcases hr : storage.read_credentials k with e | v
    · simp [hr]
    · cases v <;> simp [hr]

/-- C7 witness: a read-back record different from the written
credentials still verifies the attempt. -/
theorem write_and_verify_once_checks_presence_only_witness :
    CredentialStorage.write_and_verify_once
      ⟨fun _ _ => .ok (), fun _ => .ok (some ⟨some "x", none, none, none, none⟩),
        fun _ => .ok ()⟩
      ⟨none, none, none, none, none⟩ 0 = .ok () :=
  (write_and_verify_once_checks_presence_only _ _ 0).2
    ⟨some "x", none, none, none, none⟩ rfl rfl (by decide)

lemma retryLoop_unfold (storage : SecretStorageBehavior)
    (credentials : AccountCredentials) (m a : Nat) :
    retryLoop storage credentials m a =
      match CredentialStorage.write_and_verify_once storage credentials a with
      | .ok _ => (.ok (), a + 1, [])
      | .error e =>
        if a + 1 ≥ m then (.error e, a + 1, [])
        else
          ((retryLoop storage credentials m (a + 1)).1,
            (retryLoop storage credentials m (a + 1)).2.1,
            (100 * 2 ^ a) :: (retryLoop storage credentials m (a + 1)).2.2) := by
  rw [retryLoop]

lemma wav_first_ok (storage : SecretStorageBehavior) (credentials : AccountCredentials)
    (h0 : CredentialStorage.write_and_verify_once storage credentials 0 = .ok ()) :
    CredentialStorage.write_and_verify storage credentials = (.ok (), 1, []) := by
  unfold CredentialStorage.write_and_verify CredentialStorage.retry_with_backoff
  rw [retryLoop_unfold, h0]

lemma wav_second_ok (storage : SecretStorageBehavior) (credentials : AccountCredentials)
    (e₀ : AuthError)
    (h0 : CredentialStorage.write_and_verify_once storage credentials 0 = .error e₀)
    (h1 : CredentialStorage.write_and_verify_once storage credentials 1 = .ok ()) :
    CredentialStorage.write_and_verify storage credentials = (.ok (), 2, [100]) := by
  unfold CredentialStorage.write_and_verify CredentialStorage.retry_with_backoff
  rw [retryLoop_unfold, h0]
  norm_num
  rw [retryLoop_unfold, h1]
  simp

lemma wav_third_ok (storage : SecretStorageBehavior) (credentials : AccountCredentials)
    (e₀ e₁ : AuthError)
    (h0 : CredentialStorage.write_and_verify_once storage credentials 0 = .error e₀)
    (h1 : CredentialStorage.write_and_verify_once storage credentials 1 = .error e₁)
    (h2 : CredentialStorage.write_and_verify_once storage credentials 2 = .ok ()) :
    CredentialStorage.write_and_verify storage credentials = (.ok (), 3, [100, 200]) := by
  unfold CredentialStorage.write_and_verify CredentialStorage.retry_with_backoff
  rw [retryLoop_unfold, h0]
  norm_num
  rw [retryLoop_unfold, h1]
  norm_num
  rw [retryLoop_unfold, h2]
  simp

lemma wav_all_fail (storage : SecretStorageBehavior) (credentials : AccountCredentials)
    (e₀ e₁ e₂ : AuthError)
    (h0 : CredentialStorage.write_and_verify_once storage credentials 0 = .error e₀)
    (h1 : CredentialStorage.write_and_verify_once storage credentials 1 = .error e₁)
    (h2 : CredentialStorage.write_and_verify_once storage credentials 2 = .error e₂) :
    CredentialStorage.write_and_verify storage credentials = (.error e₂, 3, [100, 200]) := by
  unfold CredentialStorage.write_and_verify CredentialStorage.retry_with_backoff
  rw [retryLoop_unfold, h0]
  norm_num
  rw [retryLoop_unfold, h1]
  norm_num
  rw [retryLoop_unfold, h2]
  norm_num

/-- C2: `write_and_verify` performs at most 3 attempts, returns `Ok` as
soon as one attempt succeeds, returns the error of the final attempt
when all 3 fail (a `VerificationFailed` for a missing read-back, the
underlying storage error otherwise), and against a store whose read-back
always returns `None` it returns `VerificationFailed` after exactly 3
attempts with no further retries. -/
theorem write_and_verify_three_attempts (storage : SecretStorageBehavior)
    (credentials : AccountCredentials) :
    ((CredentialStorage.write_and_verify storage credentials).2.1 ≤ 3) ∧
    (CredentialStorage.write_and_verify_once storage credentials 0 = .ok () →
      CredentialStorage.write_and_verify storage credentials = (.ok (), 1, [])) ∧
    (∀ e₀, CredentialStorage.write_and_verify_once storage credentials 0 = .error e₀ →
      CredentialStorage.write_and_verify_once storage credentials 1 = .ok () →
      CredentialStorage.write_and_verify storage credentials = (.ok (), 2, [100])) ∧
    (∀ e₀ e₁, CredentialStorage.write_and_verify_once storage credentials 0 = .error e₀ →
      CredentialStorage.write_and_verify_once storage credentials 1 = .error e₁ →
      CredentialStorage.write_and_verify_once storage credentials 2 = .ok () →
      CredentialStorage.write_and_verify storage credentials = (.ok (), 3, [100, 200])) ∧
    (∀ e₀ e₁ e₂, CredentialStorage.write_and_verify_once storage credentials 0 = .error e₀ →
      CredentialStorage.write_and_verify_once storage credentials 1 = .error e₁ →
      CredentialStorage.write_and_verify_once storage credentials 2 = .error e₂ →
      CredentialStorage.write_and_verify storage credentials = (.error e₂, 3, [100, 200])) ∧
    ((∀ k, k < 3 → storage.write_credentials k credentials = .ok () ∧
        storage.read_credentials k = .ok none) →
      CredentialStorage.write_and_verify storage credentials =
        (.error .VerificationFailed, 3, [100, 200])) := by
  have hmiss : ∀ k, storage.write_credentials k credentials = .ok () →
      storage.read_credentials k = .ok none →
      CredentialStorage.write_and_verify_once storage credentials k =
        .error .VerificationFailed := by
    intro k hw hr
    unfold CredentialStorage.write_and_verify_once
    rw [hw, hr]
  refine ⟨?_, wav_first_ok storage credentials,
    wav_second_ok storage credentials,
    wav_third_ok storage credentials,
    wav_all_fail storage credentials, ?_⟩
  · rcases h0 : CredentialStorage.write_and_verify_once storage credentials 0 with e₀ | u₀
    · rcases h1 : CredentialStorage.write_and_verify_once storage credentials 1 with e₁ | u₁
      · rcases h2 : CredentialStorage.write_and_verify_once storage credentials 2 with e₂ | u₂
        · rw [wav_all_fail storage credentials e₀ e₁ e₂ h0 h1 h2]
        · cases u₂
          rw [wav_third_ok storage credentials e₀ e₁ h0 h1 h2]
      · cases u₁
        rw [wav_second_ok storage credentials e₀ h0 h1]
        norm_num
    · cases u₀
      rw [wav_first_ok storage credentials h0]
      norm_num
  · intro h
    exact wav_all_fail storage credentials _ _ _
      (hmiss 0 (h 0 (by norm_num)).1 (h 0 (by norm_num)).2)
      (hmiss 1 (h 1 (by norm_num)).1 (h 1 (by norm_num)).2)
      (hmiss 2 (h 2 (by norm_num)).1 (h 2 (by norm_num)).2)

/-- C2 witness: against the store whose read-back always returns `None`
(and whose writes always succeed), `write_and_verify` returns
`VerificationFailed` after exactly 3 attempts, with the two backoff
delays inserted. -/
theorem write_and_verify_three_attempts_witness :
    CredentialStorage.write_and_verify
      ⟨fun _ _ => .ok (), fun _ => .ok none, fun _ => .ok ()⟩
      ⟨none, none, none, none, none⟩ =
      (.error .VerificationFailed, 3, [100, 200]) :=
  (write_and_verify_three_attempts _ _).2.2.2.2.2 (fun _ _ => ⟨rfl, rfl⟩)

/-- C5: the backoff delay inserted before retry attempt `k+1` is
`100 * 2^k` milliseconds — the delays actually inserted by
`write_and_verify` are exactly `100, 200, ...` for the retries
performed, with no delay before the first attempt. -/
theorem backoff_delays_schedule (storage : SecretStorageBehavior)
    (credentials : AccountCredentials) :
    (CredentialStorage.write_and_verify storage credentials).2.2 =
      (List.range ((CredentialStorage.write_and_verify storage credentials).2.1 - 1)).map
        (fun k => 100 * 2 ^ k) := by
  rcases h0 : CredentialStorage.write_and_verify_once storage credentials 0 with e₀ | u₀
  · rcases h1 : CredentialStorage.write_and_verify_once storage credentials 1 with e₁ | u₁
    · rcases h2 : CredentialStorage.write_and_verify_once storage credentials 2 with e₂ | u₂
      · rw [wav_all_fail storage credentials e₀ e₁ e₂ h0 h1 h2]
        simp [List.range_succ]
      · cases u₂
        rw [wav_third_ok storage credentials e₀ e₁ h0 h1 h2]
        simp [List.range_succ]
    · cases u₁
      rw [wav_second_ok storage credentials e₀ h0 h1]
      simp [List.range_succ]
  · cases u₀
    rw [wav_first_ok storage credentials h0]
    simp

/-- C10: `read` and `delete` are single pass-throughs to the store
adapter: the success value is returned unchanged, the adapter error is
propagated wrapped in the service's error type, and the result depends
only on the single adapter call. -/
theorem read_delete_passthrough (storage : SecretStorageBehavior) :
    (∀ v, storage.read_credentials 0 = .ok v →
      CredentialStorage.read storage = .ok v) ∧
    (∀ e, storage.read_credentials 0 = .error e →
      CredentialStorage.read storage = .error (.StorageError e)) ∧
    (∀ v, storage.delete_credentials 0 = .ok v →
      CredentialStorage.delete storage = .ok v) ∧
    (∀ e, storage.delete_credentials 0 = .error e →
      CredentialStorage.delete storage = .error (.StorageError e)) ∧
    (∀ storage₂ : SecretStorageBehavior,
      storage.read_credentials 0 = storage₂.read_credentials 0 →
      CredentialStorage.read storage = CredentialStorage.read storage₂) ∧
    (∀ storage₂ : SecretStorageBehavior,
      storage.delete_credentials 0 = storage₂.delete_credentials 0 →
      CredentialStorage.delete storage = CredentialStorage.delete storage₂) := by
  refine ⟨?_, ?_, ?_, ?_, ?_, ?_⟩ <;>
    intro x h <;>
    simp only [CredentialStorage.read, CredentialStorage.delete] <;>
    rw [h]

/-- C10 witness: a successful adapter read with no stored record passes
through unchanged. -/
theorem read_delete_passthrough_witness :
    CredentialStorage.read ⟨fun _ _ => .ok (), fun _ => .ok none, fun _ => .ok ()⟩ =
      .ok none :=
  (read_delete_passthrough _).1 none rfl

/-- The claim's condition for an account's read to succeed: the
adapter's `read_credentials` returned `Ok(Some(_))`. -/
def readOk (rc : Nat → Except SecretStorageError (Option AccountCredentials))
    (uuid : Nat) : Bool :=
  match rc uuid with
  | .ok (some _) => true
  | _ => false

lemma foldl_removeAccount_accounts (l : List Nat) (info : BackendAccountInfo) :
    (l.foldl removeAccount info).accounts =
      info.accounts.filter fun p => decide (p.1 ∉ l) := by
  induction l generalizing info with
  | nil => simp
  | cons u l ih =>
    rw [List.foldl_cons, ih]
    simp only [removeAccount]
    rw [List.filter_filter]
    apply List.filter_congr
    intro p _
    by_cases h1 : p.1 = u <;> by_cases h2 : p.1 ∈ l <;> simp [h1, h2]

lemma foldl_removeAccount_selected_none (l : List Nat) (info : BackendAccountInfo)
    (h : info.selected_account = none) :
    (l.foldl removeAccount info).selected_account = none := by
  induction l generalizing info with
  | nil => simpa using h
  | cons u l ih =>
    rw [List.foldl_cons]
    exact ih (removeAccount info u) (by simp [removeAccount, h])

lemma foldl_removeAccount_selected_some (l : List Nat) (info : BackendAccountInfo)
    (s : Nat) (h : info.selected_account = some s) :
    (l.foldl removeAccount info).selected_account =
      if s ∈ l then none else some s := by
  induction l generalizing info with
  | nil => simpa using h
  | cons u l ih =>
    rw [List.foldl_cons]
    by_cases hu : s = u
    · rw [foldl_removeAccount_selected_none l (removeAccount info u)
        (by simp [removeAccount, h, hu])]
      simp [List.mem_cons, hu]
    · rw [ih (removeAccount info u) (by simp [removeAccount, h, hu])]
      simp [List.mem_cons, hu]

lemma filter_pred_eq_readOk
    (rc : Nat → Except SecretStorageError (Option AccountCredentials)) :
    (fun p : Nat × BackendAccount =>
      match rc p.1 with
      | .ok (some _) => false
      | .ok none => true
      | .error _ => true) = fun p => !readOk rc p.1 := by
  funext p
  rcases h : rc p.1 with e | v
  · simp [readOk, h]
  · cases v <;> simp [readOk, h]

lemma mem_accounts_to_remove
    (rc : Nat → Except SecretStorageError (Option AccountCredentials))
    (info : BackendAccountInfo) (u : Nat) :
    u ∈ ((info.accounts.filter fun p =>
        match rc p.1 with
        | .ok (some _) => false
        | .ok none => true
        | .error _ => true).map Prod.fst) ↔
      u ∈ info.accounts.map Prod.fst ∧ readOk rc u = false := by
  rw [filter_pred_eq_readOk rc]
  simp only [List.mem_map, List.mem_filter]
  constructor
  · rintro ⟨p, ⟨hp, hro⟩, rfl⟩
    exact ⟨⟨p, hp, rfl⟩, by simpa using hro⟩
  · rintro ⟨⟨p, hp, rfl⟩, hro⟩
    exact ⟨p, ⟨hp, by simpa using hro⟩, rfl⟩

/-- C9: after `validate_accounts`, an account entry remains in the map
iff its `read_credentials` call returned `Ok(Some(_))` (entries with
successful reads are left unchanged, the others are removed), and the
selected account is reset to `None` exactly when it was among the
removed identifiers. -/
theorem validate_accounts_prunes_failed_reads
    (rc : Nat → Except SecretStorageError (Option AccountCredentials))
    (info : BackendAccountInfo) :
    (∀ p, p ∈ (info.validate_accounts rc).accounts ↔
      p ∈ info.accounts ∧ readOk rc p.1 = true) ∧
    (info.selected_account = none →
      (info.validate_accounts rc).selected_account = none) ∧
    (∀ s, info.selected_account = some s →
      ((s ∈ info.accounts.map Prod.fst ∧ readOk rc s = false) →
        (info.validate_accounts rc).selected_account = none) ∧
      ((readOk rc s = true ∨ s ∉ info.accounts.map Prod.fst) →
        (info.validate_accounts rc).selected_account = some s)) := by
  unfold BackendAccountInfo.validate_accounts
  refine ⟨?_, ?_, ?_⟩
  · intro p
    rw [foldl_removeAccount_accounts]
    rw [List.mem_filter]
    constructor
    · rintro ⟨hp, hnot⟩
      refine ⟨hp, ?_⟩
      rw [decide_eq_true_eq] at hnot
      rw [mem_accounts_to_remove] at hnot
      rcases h : readOk rc p.1 with _ | _
      · exact absurd ⟨List.mem_map_of_mem Prod.fst hp, h⟩ hnot
      · rfl
    · rintro ⟨hp, hro⟩
      refine ⟨hp, ?_⟩
      rw [decide_eq_true_eq, mem_accounts_to_remove]
      rintro ⟨_, hro'⟩
      rw [hro] at hro'
      exact Bool.noConfusion hro'
  · intro h
    exact foldl_removeAccount_selected_none _ info h
  · intro s hs
    constructor
    · intro ⟨hmem, hro⟩
      rw [foldl_removeAccount_selected_some _ info s hs]
      rw [if_pos ((mem_accounts_to_remove rc info s).2 ⟨hmem, hro⟩)]
    · intro h
      rw [foldl_removeAccount_selected_some _ info s hs]
      rw [if_neg]
      rw [mem_accounts_to_remove]
      rintro ⟨hmem, hro⟩
      rcases h with h | h
      · rw [h] at hro
        exact Bool.noConfusion hro
      · exact h hmem

/-- C9 witness: with two accounts of which only the first has a stored
record, `validate_accounts` keeps the first, removes the second, and
resets the selected account, which pointed at the removed one. -/
theorem validate_accounts_prunes_failed_reads_witness :
    let acct : BackendAccount := ⟨"u", false, none⟩
    let rc : Nat → Except SecretStorageError (Option AccountCredentials) :=
      fun u => if u = 1 then .ok (some ⟨some "r", none, none, none, none⟩) else .ok none
    let info : BackendAccountInfo := ⟨[(1, acct), (2, acct)], some 2⟩
    ((1, acct) ∈ (info.validate_accounts rc).accounts ∧
      ¬ (2, acct) ∈ (info.validate_accounts rc).accounts) ∧
    (info.validate_accounts rc).selected_account = none := by
  intro acct rc info
  have h := validate_accounts_prunes_failed_reads rc info
  refine ⟨⟨(h.1 (1, acct)).2 ⟨by decide, by decide⟩, ?_⟩, ?_⟩
  · intro hmem
    have := (h.1 (2, acct)).1 hmem
    revert this
    decide
  · exact ((h.2.2 2 rfl).1 ⟨by decide, by decide⟩)

end Pandora
